import Mathlib

/-!
Shallow embedding of the caching layer of the `kiana` repository.

Embedded code:
* `src/src/plugins/fund/cache.py` — `CacheEntry` and `SafeCache`
  (`get_or_update`, `get`, `set`, `get_stats`, `_cleanup_cache`).
* `src/src/plugins/un_nickname/__init__.py` — `_try_remove_group_lock`.

Modelling conventions:
* Time is modelled as rational "minutes" (`ℚ`); `datetime.now()` becomes an
  explicit `now : ℚ` argument.  `ttl_minutes : int` becomes `ttl : ℚ`.
  Every `CacheEntry` constructed by the Python code carries a real
  `datetime.now()` timestamp, so the `timestamp is None` guards in
  `is_expired` / `age_minutes` are unreachable and the timestamp is
  modelled as a plain `ℚ`.
* The Python `OrderedDict` is a `List (String × CacheEntry V)` whose
  front is the oldest (least-recently-touched) binding.  `__setitem__`
  on an existing key replaces the value in place (keeping its position);
  on a new key it appends at the end.  `move_to_end` moves a present
  binding to the end.  `next(iter(d))` is the front element.
* Stored values have type `Option V`: `none` models the Python value
  `None`, so the `entry.data is not None` guard is `data ≠ none`.
* `fetch_func` is a state-passing function `σ → Except E (Option V) × σ`;
  a raised exception is `Except.error`.  "The fetch was not invoked" is
  expressed by the fetch state coming back unchanged for every fetch
  function.
* `SafeCache` holds a single `asyncio.Lock` that is acquired for the whole
  body of `get_or_update` (including the `await fetch_func()`), so any set
  of concurrent `get_or_update` calls executes as some sequential
  interleaving of whole calls; concurrency claims are settled against the
  sequential composition of calls.
-/

namespace Kiana

/-- Embeds `CacheEntry` of `src/src/plugins/fund/cache.py`: a cached datum
(`none` = Python `None`) together with its creation timestamp in minutes. -/
structure CacheEntry (V : Type) where
  data : Option V
  timestamp : ℚ
deriving Repr, DecidableEq

/-- Embeds `CacheEntry.is_expired`:
`datetime.now() - self.timestamp > timedelta(minutes=ttl_minutes)`. -/
def CacheEntry.is_expired {V : Type} (e : CacheEntry V) (ttl : ℚ) (now : ℚ) : Bool :=
  decide (now - e.timestamp > ttl)

/-- Embeds `CacheEntry.age_minutes`:
`(datetime.now() - self.timestamp).total_seconds() / 60`. -/
def CacheEntry.age_minutes {V : Type} (e : CacheEntry V) (now : ℚ) : ℚ :=
  now - e.timestamp

/-- The `OrderedDict` backing a `SafeCache`, front = least recently touched. -/
abbrev Cache (V : Type) := List (String × CacheEntry V)

namespace SafeCache

/-- `OrderedDict.__setitem__`: replace the value of an existing key in
place, or append a new binding at the end. -/
def setItem {V : Type} : Cache V → String → CacheEntry V → Cache V
  | [], k, e => [(k, e)]
  | p :: rest, k, e => if p.1 = k then (k, e) :: rest else p :: setItem rest k e

/-- `OrderedDict.move_to_end(key)` (call sites only reach it when the key
is present): move the key's binding to the end, keeping its value. -/
def moveToEnd {V : Type} (l : Cache V) (k : String) : Cache V :=
  match l.lookup k with
  | some e => (l.eraseP (fun p => p.1 == k)) ++ [(k, e)]
  | none => l

/-- Embeds `SafeCache._cleanup_cache`: `while len > max_size`, delete the
front (oldest) binding. -/
def cleanup_cache {V : Type} (max_size : ℕ) : Cache V → Cache V
  | [] => []
  | p :: rest =>
      if max_size < (p :: rest).length then cleanup_cache max_size rest
      else p :: rest

/-- Embeds `SafeCache.set`: store the datum with the current timestamp,
then run `_cleanup_cache`. -/
def set {V : Type} (max_size : ℕ) (c : Cache V) (key : String) (data : Option V)
    (now : ℚ) : Cache V :=
  cleanup_cache max_size (setItem c key ⟨data, now⟩)

/-- Embeds `SafeCache.get`: return the entry's datum and promote the key
(`move_to_end`); `none` when the key is absent (in Python a stored `None`
and a missing key are indistinguishable to the caller). -/
def get {V : Type} (c : Cache V) (key : String) : Option V × Cache V :=
  match c.lookup key with
  | some e => (e.data, moveToEnd c key)
  | none => (none, c)

/-- Embeds the error branch of `SafeCache.get_or_update` (lines 92–104):
on a fetch failure, serve the stale entry if one exists with non-`None`
data, otherwise re-raise the fetch error. -/
def staleOrRaise {V E : Type} (entry? : Option (CacheEntry V)) (err : E)
    (c : Cache V) : Except E (Option V) × Cache V :=
  match entry? with
  | some entry =>
      match entry.data with
      | some d => (Except.ok (some d), c)
      | none => (Except.error err, c)
  | none => (Except.error err, c)

/-- Embeds `SafeCache.get_or_update`.  The whole body runs under
`self._lock`, so one Lean call models one whole Python call.  Fast path:
a present, unexpired entry is returned after `move_to_end`, without
invoking the fetch.  Slow path: invoke `fetch`, on success store the new
entry (then `_cleanup_cache`), on failure fall back to `staleOrRaise`. -/
def get_or_update {V E σ : Type} (max_size : ℕ) (c : Cache V) (key : String)
    (fetch : σ → Except E (Option V) × σ) (ttl : ℚ) (now : ℚ) (s : σ) :
    Except E (Option V) × Cache V × σ :=
  let entry? := c.lookup key
  match entry? with
  | some entry =>
      if entry.is_expired ttl now = false then
        (Except.ok entry.data, moveToEnd c key, s)
      else
        let (r, s') := fetch s
        match r with
        | Except.ok new_data =>
            (Except.ok new_data,
              cleanup_cache max_size (setItem c key ⟨new_data, now⟩), s')
        | Except.error e =>
            let (r', c') := staleOrRaise entry? e c
            (r', c', s')
  | none =>
      let (r, s') := fetch s
      match r with
      | Except.ok new_data =>
          (Except.ok new_data,
            cleanup_cache max_size (setItem c key ⟨new_data, now⟩), s')
      | Except.error e =>
          let (r', c') := staleOrRaise entry? e c
          (r', c', s')

/-- Python's `max` over a nonempty list (the `[]` case is never reached
by `get_stats`, which guards on emptiness). -/
def listMax : List ℚ → ℚ
  | [] => 0
  | a :: rest => rest.foldl max a

/-- Python's `min` over a nonempty list (the `[]` case is never reached
by `get_stats`, which guards on emptiness). -/
def listMin : List ℚ → ℚ
  | [] => 0
  | a :: rest => rest.foldl min a

/-- Embeds `SafeCache.get_stats` as the ordered key/value pairs of the
returned dict (all values as `ℚ`).  The empty cache returns an early
four-field dict; otherwise five fields are built from the entry ages. -/
def get_stats {V : Type} (c : Cache V) (now : ℚ) : List (String × ℚ) :=
  if c.length = 0 then
    [("total_entries", 0),
     ("memory_usage_estimate", 0),
     ("oldest_entry_age_minutes", 0),
     ("newest_entry_age_minutes", 0)]
  else
    let ages := c.map (fun p => p.2.age_minutes now)
    [("total_entries", (c.length : ℚ)),
     ("memory_usage_estimate", (c.length : ℚ) * 1024),
     ("oldest_entry_age_minutes", listMax ages),
     ("newest_entry_age_minutes", listMin ages),
     ("average_age_minutes", ages.sum / (ages.length : ℚ))]

/-- Runs `n` sequential `get_or_update` calls for the same key on a shared
cache and fetch state, collecting the per-call results.  Because the
Python body holds `self._lock` across the whole call (including the
awaited fetch), any concurrent execution of the calls is equivalent to
this sequential composition in some order; for identical calls every
order is this one. -/
def runCalls {V E σ : Type} (max_size : ℕ) (key : String)
    (fetch : σ → Except E (Option V) × σ) (ttl : ℚ) (now : ℚ) :
    ℕ → Cache V × σ → List (Except E (Option V)) × Cache V × σ
  | 0, (c, s) => ([], c, s)
  | n + 1, (c, s) =>
      let (r, c', s') := get_or_update max_size c key fetch ttl now s
      let (rs, c'', s'') := runCalls max_size key fetch ttl now n (c', s')
      (r :: rs, c'', s'')

/-- Modelled from the spec: the contract
`get_or_fetch(key, primaryFetch, ttl, fallbackFetch=None)` with the
optional fallback, which `SafeCache.get_or_update` in the source does
not have.  Fast path as in the source; on a miss invoke `primaryFetch`;
on its failure invoke `fallbackFetch` once when provided and treat its
success as a primary success; if both fail (or no fallback), stale-serve
an existing entry, else propagate the error. -/
def get_or_fetch_spec {V E σ : Type} (max_size : ℕ) (c : Cache V) (key : String)
    (primaryFetch : σ → Except E (Option V) × σ) (ttl : ℚ) (now : ℚ)
    (fallbackFetch : Option (σ → Except E (Option V) × σ)) (s : σ) :
    Except E (Option V) × Cache V × σ :=
  let entry? := c.lookup key
  match entry? with
  | some entry =>
      if entry.is_expired ttl now = false then
        (Except.ok entry.data, moveToEnd c key, s)
      else
        goFetch max_size c key now fallbackFetch entry? (primaryFetch s)
  | none =>
      goFetch max_size c key now fallbackFetch entry? (primaryFetch s)
where
  /-- Modelled from the spec: outcome handling shared by the miss paths. -/
  goFetch (max_size : ℕ) (c : Cache V) (key : String) (now : ℚ)
      (fallbackFetch : Option (σ → Except E (Option V) × σ))
      (entry? : Option (CacheEntry V)) :
      Except E (Option V) × σ → Except E (Option V) × Cache V × σ
    | (Except.ok new_data, s') =>
        (Except.ok new_data,
          cleanup_cache max_size (setItem c key ⟨new_data, now⟩), s')
    | (Except.error e, s') =>
        match fallbackFetch with
        | some fb =>
            match fb s' with
            | (Except.ok fb_data, s'') =>
                (Except.ok fb_data,
                  cleanup_cache max_size (setItem c key ⟨fb_data, now⟩), s'')
            | (Except.error _, s'') =>
                let (r', c') := staleOrRaise entry? e c
                (r', c', s'')
        | none =>
            let (r', c') := staleOrRaise entry? e c
            (r', c', s')

end SafeCache

/-- Embeds the keyed lock registry `_cache_locks` of
`src/src/plugins/un_nickname/__init__.py`: each group id maps to the
held/unheld state (`lock.locked()`) of its `asyncio.Lock`. -/
abbrev LockRegistry := List (String × Bool)

/-- Embeds `_try_remove_group_lock` (whose body runs under
`_global_lock`): look up the group's lock; when it exists and is not
held, pop it from the registry; otherwise leave the registry unchanged. -/
def try_remove_group_lock (r : LockRegistry) (group_id : String) : LockRegistry :=
  match r.lookup group_id with
  | some isHeld =>
      if isHeld then r else r.eraseP (fun p => p.1 == group_id)
  | none => r

/-! ### Concrete fetch functions used by witnesses and counterexamples -/

/-- A fetch function over a counter state: returns the counter's current
value as the fetched datum and increments the counter, so the final
counter counts the fetch invocations. -/
def counterFetch : ℕ → Except Unit (Option ℕ) × ℕ :=
  fun n => (Except.ok (some n), n + 1)

/-- A fetch function that always fails (raises) with error code 7. -/
def failFetch : Unit → Except ℕ (Option ℕ) × Unit :=
  fun _ => (Except.error 7, ())

/-- A fetch function that always succeeds with the value 2 (the spec
scenario's fallback value V2). -/
def fetchV2 : Unit → Except ℕ (Option ℕ) × Unit :=
  fun _ => (Except.ok (some 2), ())

/-! ### Helper lemmas about the embedded operations -/

namespace SafeCache

variable {V E σ : Type}

lemma cleanup_cache_eq_drop (m : ℕ) (l : Cache V) :
    cleanup_cache m l = l.drop (l.length - m) := by
  induction l with
  | nil => simp [cleanup_cache]
  | cons p rest ih =>
      by_cases h : m < rest.length + 1
      · have h1 : rest.length + 1 - m = (rest.length - m) + 1 := by omega
        simp [cleanup_cache, h, ih, h1]
      · have h0 : rest.length + 1 - m = 0 := by omega
        simp [cleanup_cache, h, h0]

lemma length_cleanup_le (m : ℕ) (l : Cache V) :
    (cleanup_cache m l).length ≤ m := by
  rw [cleanup_cache_eq_drop, List.length_drop]
  omega

lemma lookup_setItem_self (l : Cache V) (k : String) (e : CacheEntry V) :
    (setItem l k e).lookup k = some e := by
  induction l with
  | nil => simp [setItem, List.lookup]
  | cons p rest ih =>
      obtain ⟨pk, pe⟩ := p
      by_cases h : pk = k
      · simp [setItem, h, List.lookup]
      · have hne : k ≠ pk := fun hk => h hk.symm
        simp [setItem, h, List.lookup_cons, beq_false_of_ne hne, ih]

lemma setItem_of_lookup_none (l : Cache V) (k : String) (e : CacheEntry V)
    (h : l.lookup k = none) : setItem l k e = l ++ [(k, e)] := by
  induction l with
  | nil => simp [setItem]
  | cons p rest ih =>
      obtain ⟨pk, pe⟩ := p
      rw [List.lookup_cons] at h
      cases hb : (k == pk) with
      | true => rw [hb] at h; simp at h
      | false =>
          rw [hb] at h
          have hpk : ¬ pk = k := by
            intro hk
            rw [hk] at hb
            simp at hb
          simp [setItem, hpk, ih h]

lemma length_setItem_of_lookup_some (l : Cache V) (k : String)
    (e e' : CacheEntry V) (h : l.lookup k = some e') :
    (setItem l k e).length = l.length := by
  induction l with
  | nil => simp [List.lookup] at h
  | cons p rest ih =>
      obtain ⟨pk, pe⟩ := p
      rw [List.lookup_cons] at h
      cases hb : (k == pk) with
      | true =>
          have hpk : pk = k := (eq_of_beq hb).symm
          simp [setItem, hpk]
      | false =>
          rw [hb] at h
          have hpk : ¬ pk = k := by
            intro hk
            rw [hk] at hb
            simp at hb
          simp [setItem, hpk, ih h]

lemma lookup_append_of_forall_ne (l1 l2 : Cache V) (k : String)
    (h : ∀ p ∈ l1, k ≠ p.1) : (l1 ++ l2).lookup k = l2.lookup k := by
  induction l1 with
  | nil => simp
  | cons p rest ih =>
      obtain ⟨pk, pe⟩ := p
      have hk : k ≠ pk := h (pk, pe) (List.mem_cons_self (pk, pe) rest)
      simp only [List.cons_append, List.lookup_cons, beq_false_of_ne hk]
      exact ih (fun q hq => h q (List.mem_cons_of_mem (pk, pe) hq))

lemma forall_ne_of_lookup_none (l : Cache V) (k : String)
    (h : l.lookup k = none) : ∀ p ∈ l, k ≠ p.1 := by
  induction l with
  | nil => simp
  | cons p rest ih =>
      obtain ⟨pk, pe⟩ := p
      rw [List.lookup_cons] at h
      cases hb : (k == pk) with
      | true => rw [hb] at h; simp at h
      | false =>
          rw [hb] at h
          intro q hq
          rcases List.mem_cons.1 hq with hq | hq
          · subst hq
            intro hk
            rw [hk] at hb
            simp at hb
          · exact ih h q hq

lemma lookup_mem (l : Cache V) (k : String) (e : CacheEntry V)
    (h : l.lookup k = some e) : (k, e) ∈ l := by
  induction l with
  | nil => simp [List.lookup] at h
  | cons p rest ih =>
      obtain ⟨pk, pe⟩ := p
      rw [List.lookup_cons] at h
      cases hb : (k == pk) with
      | true =>
          rw [hb] at h
          have hk : k = pk := eq_of_beq hb
          have he : e = pe := by injection h with h'; exact h'.symm
          rw [hk, he]
          exact List.mem_cons_self (pk, pe) rest
      | false =>
          rw [hb] at h
          exact List.mem_cons_of_mem (pk, pe) (ih h)

lemma length_moveToEnd_le (l : Cache V) (k : String) :
    (moveToEnd l k).length ≤ l.length := by
  unfold moveToEnd
  cases h : l.lookup k with
  | none => exact le_refl _
  | some e =>
      have hmem : (k, e) ∈ l := lookup_mem l k e h
      have hp : ((k, e) : String × CacheEntry V).1 == k := beq_self_eq_true k
      have hlen := List.length_eraseP_add_one
        (p := fun q : String × CacheEntry V => q.1 == k) hmem hp
      simp only [List.length_append, List.length_cons, List.length_nil]
      omega

lemma lookup_set_self (m : ℕ) (l : Cache V) (k : String) (v : Option V)
    (t : ℚ) (hm : 1 ≤ m) (hlen : l.length ≤ m) :
    (set m l k v t).lookup k = some ⟨v, t⟩ := by
  unfold set
  cases h : l.lookup k with
  | none =>
      rw [setItem_of_lookup_none l k _ h, cleanup_cache_eq_drop]
      have hlen2 : (l ++ [(k, (⟨v, t⟩ : CacheEntry V))]).length = l.length + 1 := by
        simp
      set d := (l ++ [(k, (⟨v, t⟩ : CacheEntry V))]).length - m with hd
      have hdl : d ≤ l.length := by omega
      rw [List.drop_append_eq_append_drop]
      have : d - l.length = 0 := by omega
      rw [this, List.drop_zero]
      refine Eq.trans (lookup_append_of_forall_ne _ _ _ ?_) ?_
      · intro p hp
        exact forall_ne_of_lookup_none l k h p (List.mem_of_mem_drop hp)
      · simp [List.lookup]
  | some e' =>
      rw [cleanup_cache_eq_drop, length_setItem_of_lookup_some l k _ e' h]
      have : l.length - m = 0 := by omega
      rw [this, List.drop_zero]
      exact lookup_setItem_self l k _

lemma length_set_le (m : ℕ) (l : Cache V) (k : String) (v : Option V)
    (t : ℚ) : (set m l k v t).length ≤ m :=
  length_cleanup_le m _

lemma is_expired_false_iff (e : CacheEntry V) (ttl now : ℚ) :
    e.is_expired ttl now = false ↔ now - e.timestamp ≤ ttl := by
  simp [CacheEntry.is_expired, not_lt]

lemma get_or_update_fresh (m : ℕ) (c : Cache V) (k : String)
    (fetch : σ → Except E (Option V) × σ) (ttl now : ℚ) (s : σ)
    (en : CacheEntry V) (hlk : c.lookup k = some en)
    (hfresh : en.is_expired ttl now = false) :
    get_or_update m c k fetch ttl now s = (Except.ok en.data, moveToEnd c k, s) := by
  simp [get_or_update, hlk, hfresh]

lemma get_or_update_miss_ok (m : ℕ) (c : Cache V) (k : String)
    (fetch : σ → Except E (Option V) × σ) (ttl now : ℚ) (s s' : σ)
    (v : Option V) (hlk : c.lookup k = none) (hf : fetch s = (Except.ok v, s')) :
    get_or_update m c k fetch ttl now s =
      (Except.ok v, cleanup_cache m (setItem c k ⟨v, now⟩), s') := by
  simp [get_or_update, hlk, hf]

lemma get_or_update_miss_err (m : ℕ) (c : Cache V) (k : String)
    (fetch : σ → Except E (Option V) × σ) (ttl now : ℚ) (s s' : σ)
    (e : E) (hlk : c.lookup k = none) (hf : fetch s = (Except.error e, s')) :
    get_or_update m c k fetch ttl now s = (Except.error e, c, s') := by
  simp [get_or_update, hlk, hf, staleOrRaise]

lemma get_or_update_expired_ok (m : ℕ) (c : Cache V) (k : String)
    (fetch : σ → Except E (Option V) × σ) (ttl now : ℚ) (s s' : σ)
    (en : CacheEntry V) (v : Option V) (hlk : c.lookup k = some en)
    (hexp : en.is_expired ttl now = true) (hf : fetch s = (Except.ok v, s')) :
    get_or_update m c k fetch ttl now s =
      (Except.ok v, cleanup_cache m (setItem c k ⟨v, now⟩), s') := by
  simp [get_or_update, hlk, hexp, hf]

lemma get_or_update_stale_served (m : ℕ) (c : Cache V) (k : String)
    (fetch : σ → Except E (Option V) × σ) (ttl now : ℚ) (s s' : σ)
    (en : CacheEntry V) (e : E) (d : V) (hlk : c.lookup k = some en)
    (hexp : en.is_expired ttl now = true) (hf : fetch s = (Except.error e, s'))
    (hd : en.data = some d) :
    get_or_update m c k fetch ttl now s = (Except.ok (some d), c, s') := by
  simp [get_or_update, hlk, hexp, hf, staleOrRaise, hd]

lemma get_or_update_stale_none (m : ℕ) (c : Cache V) (k : String)
    (fetch : σ → Except E (Option V) × σ) (ttl now : ℚ) (s s' : σ)
    (en : CacheEntry V) (e : E) (hlk : c.lookup k = some en)
    (hexp : en.is_expired ttl now = true) (hf : fetch s = (Except.error e, s'))
    (hd : en.data = none) :
    get_or_update m c k fetch ttl now s = (Except.error e, c, s') := by
  simp [get_or_update, hlk, hexp, hf, staleOrRaise, hd]

lemma moveToEnd_singleton (k : String) (e : CacheEntry V) :
    moveToEnd [(k, e)] k = [(k, e)] := by
  simp [moveToEnd, List.lookup, List.eraseP]

lemma is_expired_self_false (d : Option V) (t ttl : ℚ) (httl : 0 ≤ ttl) :
    (CacheEntry.mk d t).is_expired ttl t = false := by
  simp only [CacheEntry.is_expired, decide_eq_false_iff_not, not_lt, sub_self]
  exact httl

lemma not_key_mem_eraseP (l : Cache V) (k : String)
    (hn : (l.map Prod.fst).Nodup) :
    ∀ p ∈ l.eraseP (fun q => q.1 == k), k ≠ p.1 := by
  induction l with
  | nil => simp
  | cons hd rest ih =>
      obtain ⟨pk, pe⟩ := hd
      rw [List.map_cons, List.nodup_cons] at hn
      by_cases hk : pk = k
      · rw [List.eraseP_cons_of_pos (by simp [hk])]
        intro p hp hkp
        apply hn.1
        rw [hk, hkp]
        exact List.mem_map.2 ⟨p, hp, rfl⟩
      · rw [List.eraseP_cons_of_neg (by simp [hk])]
        intro p hp
        rcases List.mem_cons.1 hp with hp | hp
        · rw [hp]
          exact fun hkk => hk hkk.symm
        · exact ih hn.2 p hp

lemma lookup_moveToEnd_self (l : Cache V) (k : String) (e : CacheEntry V)
    (hn : (l.map Prod.fst).Nodup) (h : l.lookup k = some e) :
    (moveToEnd l k).lookup k = some e := by
  unfold moveToEnd
  rw [h, lookup_append_of_forall_ne _ _ _ (not_key_mem_eraseP l k hn)]
  simp [List.lookup]

lemma keys_nodup_moveToEnd (l : Cache V) (k : String)
    (hn : (l.map Prod.fst).Nodup) :
    ((moveToEnd l k).map Prod.fst).Nodup := by
  unfold moveToEnd
  cases h : l.lookup k with
  | none => exact hn
  | some e =>
      rw [List.map_append]
      simp only [List.map_cons, List.map_nil]
      have hnodup : ((l.eraseP (fun q => q.1 == k)).map Prod.fst).Nodup :=
        hn.sublist ((List.eraseP_sublist l).map Prod.fst)
      rw [List.nodup_append]
      refine ⟨hnodup, List.nodup_singleton k, ?_⟩
      intro x hx hxk
      rw [List.mem_singleton] at hxk
      obtain ⟨p, hp, hpx⟩ := List.mem_map.1 hx
      refine not_key_mem_eraseP l k hn p hp ?_
      rw [hxk] at hpx
      exact hpx.symm

lemma map_fst_setItem_of_lookup_some (l : Cache V) (k : String)
    (e e' : CacheEntry V) (h : l.lookup k = some e') :
    (setItem l k e).map Prod.fst = l.map Prod.fst := by
  induction l with
  | nil => simp [List.lookup] at h
  | cons p rest ih =>
      obtain ⟨pk, pe⟩ := p
      rw [List.lookup_cons] at h
      cases hb : (k == pk) with
      | true =>
          have hpk : pk = k := (eq_of_beq hb).symm
          simp [setItem, hpk]
      | false =>
          rw [hb] at h
          have hpk : ¬ pk = k := by
            intro hk
            rw [hk] at hb
            simp at hb
          simp [setItem, hpk, ih h]

lemma keys_nodup_setItem (l : Cache V) (k : String) (e : CacheEntry V)
    (hn : (l.map Prod.fst).Nodup) :
    ((setItem l k e).map Prod.fst).Nodup := by
  cases h : l.lookup k with
  | some e' =>
      rw [map_fst_setItem_of_lookup_some l k e e' h]
      exact hn
  | none =>
      rw [setItem_of_lookup_none l k e h, List.map_append]
      simp only [List.map_cons, List.map_nil]
      rw [List.nodup_append]
      refine ⟨hn, List.nodup_singleton k, ?_⟩
      intro x hx hxk
      rw [List.mem_singleton] at hxk
      obtain ⟨p, hp, hpx⟩ := List.mem_map.1 hx
      refine forall_ne_of_lookup_none l k h p hp ?_
      rw [hxk] at hpx
      exact hpx.symm

lemma keys_nodup_cleanup (m : ℕ) (l : Cache V)
    (hn : (l.map Prod.fst).Nodup) :
    ((cleanup_cache m l).map Prod.fst).Nodup := by
  rw [cleanup_cache_eq_drop, List.map_drop]
  exact hn.sublist (List.drop_sublist _ _)

lemma keys_nodup_set (m : ℕ) (l : Cache V) (k : String) (v : Option V)
    (t : ℚ) (hn : (l.map Prod.fst).Nodup) :
    ((set m l k v t).map Prod.fst).Nodup :=
  keys_nodup_cleanup m _ (keys_nodup_setItem l k _ hn)

/-- Once the key holds an entry created at the calls' shared time, every
further call on any duplicate-free cache takes the fast path: each call
returns the cached datum, the fetch state is untouched, and the entry
survives the `move_to_end` promotions. -/
lemma runCalls_fresh_general (m : ℕ) (k : String)
    (fetch : σ → Except E (Option V) × σ) (ttl now : ℚ) (httl : 0 ≤ ttl)
    (d : Option V) (n : ℕ) :
    ∀ (c : Cache V) (s : σ), (c.map Prod.fst).Nodup →
      c.lookup k = some ⟨d, now⟩ →
      ∃ c', runCalls m k fetch ttl now n (c, s) =
        (List.replicate n (Except.ok d), c', s) := by
  induction n with
  | zero =>
      intro c s _ _
      exact ⟨c, by simp [runCalls]⟩
  | succ n ih =>
      intro c s hn hlk
      have hstep := get_or_update_fresh m c k fetch ttl now s ⟨d, now⟩ hlk
        (is_expired_self_false d now ttl httl)
      obtain ⟨c', hc'⟩ := ih (moveToEnd c k) s (keys_nodup_moveToEnd c k hn)
        (lookup_moveToEnd_self c k ⟨d, now⟩ hn hlk)
      refine ⟨c', ?_⟩
      rw [runCalls, hstep]
      simp [hc', List.replicate]

end SafeCache

/-! ### Claim theorems -/

open SafeCache

/-- C7: with `max_size = 2`, inserting keys A, B, C in that order with no
intervening reads leaves exactly {B, C} cached; reading A via `get`
between inserting B and inserting C instead leaves exactly {A, C} cached
(a read promotes its key to most-recently-used, so the eviction victim
changes). -/
theorem C7_lru_recency :
    (set 2 (set 2 (set 2 ([] : Cache ℕ) "A" (some 1) 0) "B" (some 2) 1)
        "C" (some 3) 2).map Prod.fst = ["B", "C"] ∧
    (set 2 (get (set 2 (set 2 ([] : Cache ℕ) "A" (some 1) 0) "B" (some 2) 1)
        "A").2 "C" (some 3) 2).map Prod.fst = ["A", "C"] := by
  decide

/-- C8 counterexample: on the empty cache, `get_stats` returns only four
fields and the average-age field is absent, so the claim that every state
(including the empty cache) yields all five fields is false. -/
theorem C8_counterexample :
    (get_stats ([] : Cache ℕ) 0).map Prod.fst =
      ["total_entries", "memory_usage_estimate", "oldest_entry_age_minutes",
       "newest_entry_age_minutes"] ∧
    "average_age_minutes" ∉ (get_stats ([] : Cache ℕ) 0).map Prod.fst := by
  decide

/-- C8 (amended): for every nonempty cache state, `get_stats` returns a
record with all five fields (entry count, memory estimate, oldest age,
newest age, average age); the empty cache returns only the first four and
omits the average. -/
theorem C8_stats_fields_amended {V : Type} (c : Cache V) (now now' : ℚ)
    (h : c.length ≠ 0) :
    (get_stats c now).map Prod.fst =
      ["total_entries", "memory_usage_estimate", "oldest_entry_age_minutes",
       "newest_entry_age_minutes", "average_age_minutes"] ∧
    (get_stats ([] : Cache V) now').map Prod.fst =
      ["total_entries", "memory_usage_estimate", "oldest_entry_age_minutes",
       "newest_entry_age_minutes"] := by
  constructor
  · simp [get_stats, h]
  · simp [get_stats]

/-- C8 witness: the amended statement at a concrete one-entry cache. -/
theorem C8_stats_fields_amended_witness :
    (get_stats [("a", (⟨some 1, 0⟩ : CacheEntry ℕ))] 0).map Prod.fst =
      ["total_entries", "memory_usage_estimate", "oldest_entry_age_minutes",
       "newest_entry_age_minutes", "average_age_minutes"] ∧
    (get_stats ([] : Cache ℕ) 0).map Prod.fst =
      ["total_entries", "memory_usage_estimate", "oldest_entry_age_minutes",
       "newest_entry_age_minutes"] :=
  C8_stats_fields_amended [("a", (⟨some 1, 0⟩ : CacheEntry ℕ))] 0 0 (by decide)

/-- C9: the keyed lock registry's reclaim removes a key's lock only when
that lock is currently unheld; when the lock is held at reclaim time, the
registry is left unchanged. -/
theorem C9_lock_reclaim (r : LockRegistry) (gid : String) :
    (r.lookup gid = some true → try_remove_group_lock r gid = r) ∧
    (try_remove_group_lock r gid ≠ r → r.lookup gid = some false) := by
  constructor
  · intro h1
    simp [try_remove_group_lock, h1]
  · intro hne
    by_cases h : r.lookup gid = some false
    · exact h
    · exfalso
      apply hne
      unfold try_remove_group_lock
      cases hl : r.lookup gid with
      | none => rfl
      | some b =>
          cases b with
          | true => simp
          | false => exact absurd hl h

/-- C9 witness: a registry whose only lock is held is unchanged by the
reclaim attempt. -/
theorem C9_lock_reclaim_witness :
    try_remove_group_lock [("g", true)] "g" = [("g", true)] :=
  (C9_lock_reclaim [("g", true)] "g").1 (by decide)

/-- Whatever path `get_or_update` takes, the cache it returns never grows
past `max_size` when it respected that bound on entry. -/
lemma length_get_or_update_le {V E σ : Type} (m : ℕ) (c : Cache V) (k : String)
    (fetch : σ → Except E (Option V) × σ) (ttl now : ℚ) (s : σ)
    (hc : c.length ≤ m) :
    ((get_or_update m c k fetch ttl now s).2.1).length ≤ m := by
  cases hl : c.lookup k with
  | none =>
      cases hfs : fetch s with
      | mk r s' =>
          cases r with
          | ok v =>
              rw [get_or_update_miss_ok m c k fetch ttl now s s' v hl hfs]
              exact length_cleanup_le m _
          | error e =>
              rw [get_or_update_miss_err m c k fetch ttl now s s' e hl hfs]
              exact hc
  | some en =>
      cases hexp : en.is_expired ttl now with
      | false =>
          rw [get_or_update_fresh m c k fetch ttl now s en hl hexp]
          exact le_trans (length_moveToEnd_le c k) hc
      | true =>
          cases hfs : fetch s with
          | mk r s' =>
              cases r with
              | ok v =>
                  rw [get_or_update_expired_ok m c k fetch ttl now s s' en v hl hexp hfs]
                  exact length_cleanup_le m _
              | error e =>
                  cases hd : en.data with
                  | some d =>
                      rw [get_or_update_stale_served m c k fetch ttl now s s' en e d hl hexp hfs hd]
                      exact hc
                  | none =>
                      rw [get_or_update_stale_none m c k fetch ttl now s s' en e hl hexp hfs hd]
                      exact hc

/-- C4: eviction removes the least-recently-touched (front) bindings
first and exactly as many as needed (`_cleanup_cache` is `drop` of the
overflow from the front); after any insertion via `set`, the cache holds
at most `max_size` entries; and `get_or_update` preserves the
size ≤ max_size invariant on every path, in particular after the
insertion a successful fetch performs. -/
theorem C4_size_bound_lru {V E σ : Type} (m : ℕ) (l c : Cache V) (k : String)
    (v : Option V) (t ttl now : ℚ) (fetch : σ → Except E (Option V) × σ)
    (s : σ) :
    cleanup_cache m l = l.drop (l.length - m) ∧
    (set m l k v t).length ≤ m ∧
    (c.length ≤ m → ((get_or_update m c k fetch ttl now s).2.1).length ≤ m) :=
  ⟨cleanup_cache_eq_drop m l, length_set_le m l k v t,
   fun hc => length_get_or_update_le m c k fetch ttl now s hc⟩

/-- C4 witness: the size/eviction bound at a concrete overfull list and a
concrete cache and call. -/
theorem C4_size_bound_lru_witness :
    cleanup_cache 2 [("a", (⟨some 1, 0⟩ : CacheEntry ℕ)), ("b", ⟨some 2, 0⟩),
        ("c", ⟨some 3, 0⟩)] =
      ([("a", (⟨some 1, 0⟩ : CacheEntry ℕ)), ("b", ⟨some 2, 0⟩),
        ("c", ⟨some 3, 0⟩)]).drop 1 ∧
    (set 2 [("a", (⟨some 1, 0⟩ : CacheEntry ℕ)), ("b", ⟨some 2, 0⟩),
        ("c", ⟨some 3, 0⟩)] "c" (some 3) 0).length ≤ 2 ∧
    ((get_or_update 2 [("a", (⟨some 1, 0⟩ : CacheEntry ℕ)), ("b", ⟨some 2, 0⟩)]
        "c" fetchV2 5 0 ()).2.1).length ≤ 2 := by
  have h := C4_size_bound_lru 2
    [("a", (⟨some 1, 0⟩ : CacheEntry ℕ)), ("b", ⟨some 2, 0⟩), ("c", ⟨some 3, 0⟩)]
    [("a", (⟨some 1, 0⟩ : CacheEntry ℕ)), ("b", ⟨some 2, 0⟩)]
    "c" (some 3) 0 5 0 fetchV2 ()
  exact ⟨h.1, h.2.1, h.2.2 (by decide)⟩

/-- C6 counterexample: with `ttl = 5`, a call on an entry whose age is
exactly 5 returns the cached value on the fast path with the fetch
counter left at 0 — the fetch is not invoked, contradicting the claim
that an entry of age exactly `ttl` is treated as expired and triggers
the fetch. -/
theorem C6_counterexample :
    get_or_update 100 [("a", (⟨some 1, 0⟩ : CacheEntry ℕ))] "a" counterFetch
        5 5 0 =
      (Except.ok (some 1), [("a", (⟨some 1, 0⟩ : CacheEntry ℕ))], 0) ∧
    (get_or_update 100 [("a", (⟨some 1, 0⟩ : CacheEntry ℕ))] "a" counterFetch
        5 5 0).2.2 ≠ 1 := by
  have hlk : ([("a", (⟨some 1, 0⟩ : CacheEntry ℕ))] : Cache ℕ).lookup "a" =
      some ⟨some 1, 0⟩ := by
    simp [List.lookup]
  have hfresh : (⟨some 1, 0⟩ : CacheEntry ℕ).is_expired 5 5 = false := by
    rw [is_expired_false_iff]
    norm_num
  have h := get_or_update_fresh 100 [("a", (⟨some 1, 0⟩ : CacheEntry ℕ))] "a"
    counterFetch 5 5 0 ⟨some 1, 0⟩ hlk hfresh
  rw [moveToEnd_singleton] at h
  exact ⟨h, by rw [h]; decide⟩

/-- C6 (amended): `get_or_update` returns the cached value without
invoking the fetch precisely when `now - created_at ≤ ttl`; in
particular an entry whose age is exactly `ttl` is still fresh, so a call
at that moment takes the fast path and does not invoke the fetch. -/
theorem C6_ttl_boundary_amended {V E σ : Type} (m : ℕ) (c : Cache V)
    (k : String) (fetch : σ → Except E (Option V) × σ) (ttl now : ℚ) (s : σ)
    (en : CacheEntry V) (hlk : c.lookup k = some en) :
    (en.is_expired ttl now = false ↔ now - en.timestamp ≤ ttl) ∧
    (now - en.timestamp = ttl →
       get_or_update m c k fetch ttl now s =
         (Except.ok en.data, moveToEnd c k, s)) := by
  refine ⟨is_expired_false_iff en ttl now, fun hb => ?_⟩
  exact get_or_update_fresh m c k fetch ttl now s en hlk
    ((is_expired_false_iff en ttl now).2 (le_of_eq hb))

/-- C6 witness: the amended boundary behaviour at a concrete entry of age
exactly `ttl = 5`. -/
theorem C6_ttl_boundary_amended_witness :
    (⟨some 1, 0⟩ : CacheEntry ℕ).is_expired 5 5 = false ∧
    get_or_update 100 [("a", (⟨some 1, 0⟩ : CacheEntry ℕ))] "a" failFetch
        5 5 () =
      (Except.ok (some 1),
       moveToEnd [("a", (⟨some 1, 0⟩ : CacheEntry ℕ))] "a", ()) :=
  ⟨((C6_ttl_boundary_amended 100 [("a", (⟨some 1, 0⟩ : CacheEntry ℕ))] "a"
      failFetch 5 5 () ⟨some 1, 0⟩ (by simp [List.lookup])).1).2 (by norm_num),
   (C6_ttl_boundary_amended 100 [("a", (⟨some 1, 0⟩ : CacheEntry ℕ))] "a"
      failFetch 5 5 () ⟨some 1, 0⟩ (by simp [List.lookup])).2 (by norm_num)⟩

/-- C2 counterexample: a prior entry for the key exists (its stored value
is `None`), the fetch raises, and yet `get_or_update` raises the fetch
error instead of returning the previously cached value — so "returns the
prior value whenever an entry exists" and "raises iff no prior entry
exists" are both false. -/
theorem C2_counterexample :
    (([("a", (⟨none, 0⟩ : CacheEntry ℕ))] : Cache ℕ).lookup "a").isSome = true ∧
    (get_or_update 100 [("a", (⟨none, 0⟩ : CacheEntry ℕ))] "a" failFetch
        5 10 ()).1 = Except.error 7 := by
  constructor
  · simp [List.lookup]
  · have hlk : ([("a", (⟨none, 0⟩ : CacheEntry ℕ))] : Cache ℕ).lookup "a" =
        some ⟨none, 0⟩ := by
      simp [List.lookup]
    have hexp : (⟨none, 0⟩ : CacheEntry ℕ).is_expired 5 10 = true := by
      simp only [CacheEntry.is_expired, decide_eq_true_eq]
      norm_num
    rw [get_or_update_stale_none 100 [("a", (⟨none, 0⟩ : CacheEntry ℕ))] "a"
      failFetch 5 10 () () ⟨none, 0⟩ 7 hlk hexp rfl rfl]

/-- C2 (amended): when the fetch raises on a slow-path call, the call
returns the previously cached value exactly when a prior entry with a
non-`None` value exists; it raises the fetch error when no prior entry
exists or when the prior entry's stored value is `None`. -/
theorem C2_stale_serve_amended {V E σ : Type} (m : ℕ) (c : Cache V)
    (k : String) (fetch : σ → Except E (Option V) × σ) (ttl now : ℚ)
    (s s' : σ) (e : E) (hf : fetch s = (Except.error e, s')) :
    (c.lookup k = none →
       get_or_update m c k fetch ttl now s = (Except.error e, c, s')) ∧
    (∀ en : CacheEntry V, c.lookup k = some en →
       en.is_expired ttl now = true →
       (∀ d, en.data = some d →
          get_or_update m c k fetch ttl now s = (Except.ok (some d), c, s')) ∧
       (en.data = none →
          get_or_update m c k fetch ttl now s = (Except.error e, c, s'))) := by
  refine ⟨fun hlk => get_or_update_miss_err m c k fetch ttl now s s' e hlk hf,
    fun en hlk hexp => ⟨fun d hd => ?_, fun hd => ?_⟩⟩
  · exact get_or_update_stale_served m c k fetch ttl now s s' en e d hlk hexp hf hd
  · exact get_or_update_stale_none m c k fetch ttl now s s' en e hlk hexp hf hd

/-- C2 witness: the amended behaviour at a concrete expired entry with a
non-`None` value (stale-served) under a raising fetch. -/
theorem C2_stale_serve_amended_witness :
    get_or_update 100 [("a", (⟨some 3, 0⟩ : CacheEntry ℕ))] "a" failFetch
        5 10 () =
      (Except.ok (some 3), [("a", (⟨some 3, 0⟩ : CacheEntry ℕ))], ()) :=
  ((C2_stale_serve_amended 100 [("a", (⟨some 3, 0⟩ : CacheEntry ℕ))] "a"
      failFetch 5 10 () () 7 rfl).2 ⟨some 3, 0⟩ (by simp [List.lookup])
    (by simp only [CacheEntry.is_expired, decide_eq_true_eq]; norm_num)).1
    3 rfl

/-- C10: if the value stored in a key's entry is `None`, a failed fetch
does not stale-serve that entry: the fetch error is raised even though an
entry for the key exists. -/
theorem C10_none_not_stale_served {V E σ : Type} (m : ℕ) (c : Cache V)
    (k : String) (fetch : σ → Except E (Option V) × σ) (ttl now : ℚ)
    (s s' : σ) (en : CacheEntry V) (e : E) (hlk : c.lookup k = some en)
    (hexp : en.is_expired ttl now = true) (hd : en.data = none)
    (hf : fetch s = (Except.error e, s')) :
    get_or_update m c k fetch ttl now s = (Except.error e, c, s') :=
  get_or_update_stale_none m c k fetch ttl now s s' en e hlk hexp hf hd

/-- C10 witness: the `None`-valued entry is not stale-served at a concrete
expired entry and raising fetch. -/
theorem C10_none_not_stale_served_witness :
    get_or_update 100 [("b", (⟨none, 0⟩ : CacheEntry ℕ))] "b" failFetch
        5 10 () =
      (Except.error 7, [("b", (⟨none, 0⟩ : CacheEntry ℕ))], ()) :=
  C10_none_not_stale_served 100 [("b", (⟨none, 0⟩ : CacheEntry ℕ))] "b"
    failFetch 5 10 () () ⟨none, 0⟩ 7 (by simp [List.lookup])
    (by simp only [CacheEntry.is_expired, decide_eq_true_eq]; norm_num)
    rfl rfl

/-- C5 counterexample: in the spec-modelled `get_or_fetch_spec`, a failing
primary fetch with a provided fallback returning V2 = 2 yields
`Except.ok (some 2)`; the source `get_or_update`, which accepts no
fallback-fetch argument, raises the primary error on the same scenario —
so the claimed fallback behaviour is false of the code. -/
theorem C5_counterexample :
    (get_or_fetch_spec 100 ([] : Cache ℕ) "a" failFetch 5 0 (some fetchV2)
        ()).1 = Except.ok (some 2) ∧
    (get_or_update 100 ([] : Cache ℕ) "a" failFetch 5 0 ()).1 =
      Except.error 7 ∧
    (Except.ok (some 2) : Except ℕ (Option ℕ)) ≠ Except.error 7 := by
  refine ⟨rfl, rfl, ?_⟩
  simp

/-- C5 (amended): `get_or_update` accepts no fallback-fetch argument and
never invokes a second fetch.  On a miss, a successful primary fetch's
value is returned and cached as `set` would cache it, and a subsequent
call within `ttl` returns that value without invoking any fetch; a
failing primary fetch on a never-populated key propagates its error. -/
theorem C5_no_fallback_amended {V E σ : Type} (m : ℕ) (c : Cache V)
    (k : String) (fetch : σ → Except E (Option V) × σ) (ttl now t' : ℚ)
    (s s' : σ) (v : Option V) (e : E)
    (hm : 1 ≤ m) (hlen : c.length ≤ m) (hmiss : c.lookup k = none) :
    (fetch s = (Except.ok v, s') →
       get_or_update m c k fetch ttl now s =
         (Except.ok v, set m c k v now, s') ∧
       (∀ {E₂ σ₂ : Type} (fetch₂ : σ₂ → Except E₂ (Option V) × σ₂) (s₂ : σ₂),
          now ≤ t' → t' < now + ttl →
          get_or_update m (set m c k v now) k fetch₂ ttl t' s₂ =
            (Except.ok v, moveToEnd (set m c k v now) k, s₂))) ∧
    (fetch s = (Except.error e, s') →
       get_or_update m c k fetch ttl now s = (Except.error e, c, s')) := by
  constructor
  · intro hok
    constructor
    · exact get_or_update_miss_ok m c k fetch ttl now s s' v hmiss hok
    · intro E₂ σ₂ fetch₂ s₂ ht0 ht1
      have hlk := lookup_set_self m c k v now hm hlen
      have hfresh : (⟨v, now⟩ : CacheEntry V).is_expired ttl t' = false := by
        rw [is_expired_false_iff]
        show t' - now ≤ ttl
        linarith
      exact get_or_update_fresh m _ k fetch₂ ttl t' s₂ ⟨v, now⟩ hlk hfresh
  · intro herr
    exact get_or_update_miss_err m c k fetch ttl now s s' e hmiss herr

/-- C5 witness: the amended behaviour at a concrete miss — the successful
primary fetch's value 2 is returned, cached, and served again within
`ttl` without invoking the (failing) second fetch. -/
theorem C5_no_fallback_amended_witness :
    get_or_update 100 ([] : Cache ℕ) "a" fetchV2 5 0 () =
      (Except.ok (some 2), set 100 ([] : Cache ℕ) "a" (some 2) 0, ()) ∧
    get_or_update 100 (set 100 ([] : Cache ℕ) "a" (some 2) 0) "a" failFetch
        5 3 () =
      (Except.ok (some 2),
       moveToEnd (set 100 ([] : Cache ℕ) "a" (some 2) 0) "a", ()) := by
  have h := (C5_no_fallback_amended 100 ([] : Cache ℕ) "a" fetchV2 5 0 3
    () () (some 2) 7 (by decide) (by decide) rfl).1 rfl
  exact ⟨h.1, h.2 failFetch () (by norm_num) (by norm_num)⟩

/-- C1: `get_or_update` holds the cache's single lock across its whole
body (including the awaited fetch), so N concurrent calls for the same
key execute as N sequential calls.  Starting from any duplicate-free,
within-capacity cache in which the key is absent **or** holds an expired
entry, N ≥ 1 calls with a counter-incrementing fetch leave the counter
at 1 and every call returns the result of that single fetch invocation
(the newly fetched value, not any stale entry's value). -/
theorem C1_single_flight (N m : ℕ) (k : String) (ttl now : ℚ)
    (c0 : Cache ℕ) (hN : 1 ≤ N) (hm : 1 ≤ m) (httl : 0 ≤ ttl)
    (hnodup : (c0.map Prod.fst).Nodup) (hlen : c0.length ≤ m)
    (hstart : c0.lookup k = none ∨
       ∃ en, c0.lookup k = some en ∧ en.is_expired ttl now = true) :
    (runCalls m k counterFetch ttl now N (c0, 0)).2.2 = 1 ∧
    (runCalls m k counterFetch ttl now N (c0, 0)).1 =
      List.replicate N (Except.ok (some 0)) := by
  obtain ⟨n, rfl⟩ : ∃ n, N = n + 1 := ⟨N - 1, by omega⟩
  have hfirst : get_or_update m c0 k counterFetch ttl now 0 =
      (Except.ok (some 0), set m c0 k (some 0) now, 1) := by
    rcases hstart with hmiss | ⟨en, hen, hexp⟩
    · exact get_or_update_miss_ok m c0 k counterFetch ttl now 0 1 (some 0)
        hmiss rfl
    · exact get_or_update_expired_ok m c0 k counterFetch ttl now 0 1 en
        (some 0) hen hexp rfl
  have hlk1 := lookup_set_self m c0 k (some 0) now hm hlen
  have hn1 := keys_nodup_set m c0 k (some 0) now hnodup
  obtain ⟨c', hrun⟩ := runCalls_fresh_general m k counterFetch ttl now httl
    (some 0) n (set m c0 k (some 0) now) 1 hn1 hlk1
  rw [runCalls, hfirst]
  simp [hrun, List.replicate]

/-- C1 witness: the single-flight theorem at the spec's N = 50 concurrent
calls, once from the empty cache (absent key) and once from a cache whose
only entry for the key is expired with stale value 99 — every call
returns the newly fetched value 0, not 99, and the counter ends at 1 in
both runs. -/
theorem C1_single_flight_witness :
    (runCalls 100 "k" counterFetch 5 0 50 (([] : Cache ℕ), 0)).2.2 = 1 ∧
    (runCalls 100 "k" counterFetch 5 0 50 (([] : Cache ℕ), 0)).1 =
      List.replicate 50 (Except.ok (some 0)) ∧
    (runCalls 100 "k" counterFetch 5 10 50
        ([("k", (⟨some 99, 0⟩ : CacheEntry ℕ))], 0)).2.2 = 1 ∧
    (runCalls 100 "k" counterFetch 5 10 50
        ([("k", (⟨some 99, 0⟩ : CacheEntry ℕ))], 0)).1 =
      List.replicate 50 (Except.ok (some 0)) := by
  have h1 := C1_single_flight 50 100 "k" 5 0 ([] : Cache ℕ) (by decide)
    (by decide) (by norm_num) (by decide) (by decide) (Or.inl rfl)
  have h2 := C1_single_flight 50 100 "k" 5 10
    [("k", (⟨some 99, 0⟩ : CacheEntry ℕ))] (by decide) (by decide)
    (by norm_num) (by decide) (by decide)
    (Or.inr ⟨⟨some 99, 0⟩, by simp [List.lookup],
      by simp only [CacheEntry.is_expired, decide_eq_true_eq]; norm_num⟩)
  exact ⟨h1.1, h1.2, h2.1, h2.2⟩

/-- C3: for every key k, value v and ttl T, after `set(k, v)` at time t0,
every `get_or_update(k, f, T)` call at a time t with t0 ≤ t < t0 + T
returns v unchanged (fast path) and does not invoke f: the result is the
same, with the fetch state untouched, for every fetch function f. -/
theorem C3_freshness {V E σ : Type} (m : ℕ) (c : Cache V) (k : String)
    (v : Option V) (T t0 t : ℚ) (fetch : σ → Except E (Option V) × σ) (s : σ)
    (hm : 1 ≤ m) (hlen : c.length ≤ m) (h0 : t0 ≤ t) (h1 : t < t0 + T) :
    get_or_update m (set m c k v t0) k fetch T t s =
      (Except.ok v, moveToEnd (set m c k v t0) k, s) := by
  have hlk := lookup_set_self m c k v t0 hm hlen
  have hfresh : (⟨v, t0⟩ : CacheEntry V).is_expired T t = false := by
    rw [is_expired_false_iff]
    show t - t0 ≤ T
    linarith
  exact get_or_update_fresh m _ k fetch T t s ⟨v, t0⟩ hlk hfresh

/-- C3 witness: the freshness theorem at a concrete cache, key and time. -/
theorem C3_freshness_witness :
    get_or_update 2 (set 2 [("x", (⟨some 9, 0⟩ : CacheEntry ℕ))] "a" (some 5) 0)
        "a" failFetch 10 3 () =
      (Except.ok (some 5),
       moveToEnd (set 2 [("x", (⟨some 9, 0⟩ : CacheEntry ℕ))] "a" (some 5) 0) "a",
       ()) :=
  C3_freshness 2 [("x", (⟨some 9, 0⟩ : CacheEntry ℕ))] "a" (some 5) 10 0 3
    failFetch () (by decide) (by decide) (by norm_num) (by norm_num)

end Kiana
